import Mathlib

/-!
Verification of the webhook message-ingestion service
(`app/main.py`, `app/storage.py`, `app/models.py`) against its
natural-language specification.

The embedding models:
* the SQLite `messages` table (`Row`, `Store`) with its schema constraints
  (`message_id TEXT PRIMARY KEY`, NOT NULL columns, nullable `text`);
* `insert_message` from `app/storage.py`, including its handling of
  `aiosqlite.IntegrityError`;
* the `POST /webhook` handler from `app/main.py`: signature check on the
  raw body, pydantic validation of `WebhookPayload`, idempotent insert;
* the `GET /messages` handler: `from`/`since`/`q` filters (with SQL `LIKE`
  semantics for `q`), `ORDER BY ts ASC, message_id ASC`, `LIMIT`/`OFFSET`;
* the `GET /stats` handler: `COUNT(*)`, `COUNT(DISTINCT from_msisdn)`,
  `MIN(ts)`, `MAX(ts)`.

HMAC-SHA256 and JSON parsing are abstracted as function parameters
(`hmacHex`, `parse`): the verified properties depend only on how the
handler uses their results, never on their internals.
-/

/-- A JSON value, as produced by `request.json()` and rendered in
FastAPI responses. -/
inductive JVal where
  | null : JVal
  | bool : Bool → JVal
  | num : Int → JVal
  | str : String → JVal
  | arr : List JVal → JVal
  | obj : List (String × JVal) → JVal

/-- Look up a key in a JSON object's field list (Python dicts hold each
key once; first match). -/
def jlookup (fields : List (String × JVal)) (k : String) : Option JVal :=
  match fields with
  | [] => none
  | (k', v) :: rest => if k' = k then some v else jlookup rest k

/-- One row of the `messages` table.  Schema from `INIT_SCRIPT` in
`app/models.py`: `message_id TEXT PRIMARY KEY`, `from_msisdn TEXT NOT NULL`,
`to_msisdn TEXT NOT NULL`, `ts TEXT NOT NULL`, `text TEXT`,
`created_at TEXT NOT NULL`.  The `text` column has no NOT NULL constraint,
so it is nullable. -/
structure Row where
  message_id : String
  from_msisdn : String
  to_msisdn : String
  ts : String
  text : Option String
  created_at : String
deriving DecidableEq, Repr

/-- The `messages` table: rows in insertion order. -/
abbrev Store := List Row

/-- The bound-parameter dictionary passed to the INSERT statement in
`insert_message` (`msg_data`).  Python dict values may be `None`, which
binds SQL NULL, so every column value is an `Option`; `message_id` is kept
as a plain string (the key under which idempotency is defined). -/
structure MsgData where
  message_id : String
  from_ : Option String
  to_ : Option String
  ts : Option String
  text : Option String
  created_at : Option String
deriving DecidableEq, Repr

/-- Storage failures that escape `insert_message` (anything that is not an
`aiosqlite.IntegrityError`, e.g. `OperationalError` on I/O or
connectivity problems). -/
inductive StorageErr where
  | operationalError : StorageErr
deriving DecidableEq, Repr

/-- Does the store already hold a row with this `message_id`
(the PRIMARY KEY uniqueness check)? -/
def hasId (s : Store) (id : String) : Bool :=
  s.any (fun r => r.message_id == id)

/-- `insert_message` from `app/storage.py`.

`ioFail` models an I/O or connectivity failure of the SQLite connection:
such errors are not `IntegrityError`, so the bare `except
aiosqlite.IntegrityError` does not catch them and they propagate.

Otherwise the engine attempts the INSERT:
* a NULL bound to a NOT NULL column (`from_msisdn`, `to_msisdn`, `ts`,
  `created_at`) raises `IntegrityError`, which the function catches and
  turns into `False`;
* a duplicate `message_id` violates the PRIMARY KEY, also an
  `IntegrityError`, also `False`;
* otherwise the row is appended and the function returns `True`. -/
def insert_message (ioFail : Bool) (s : Store) (m : MsgData) :
    Except StorageErr (Bool × Store) :=
  if ioFail then .error .operationalError
  else
    match m.from_, m.to_, m.ts, m.created_at with
    | some f, some t, some ts, some ca =>
        if hasId s m.message_id then .ok (false, s)
        else .ok (true, s ++ [⟨m.message_id, f, t, ts, m.text, ca⟩])
    | _, _, _, _ => .ok (false, s)

/-- `^\+\d+$` — a `+` followed by one or more digits
(pattern on `from` and `to` in `WebhookPayload`). -/
def isPlusDigits (s : String) : Bool :=
  match s.data with
  | '+' :: rest => !rest.isEmpty && rest.all Char.isDigit
  | _ => false

/-- `^\d{4}-\d{2}-\d{2}T\d{2}:\d{2}:\d{2}Z$` — the `ts` pattern in
`WebhookPayload`. -/
def isTsPattern (s : String) : Bool :=
  match s.data with
  | [y1, y2, y3, y4, '-', m1, m2, '-', d1, d2, 'T',
     h1, h2, ':', n1, n2, ':', s1, s2, 'Z'] =>
      [y1, y2, y3, y4, m1, m2, d1, d2, h1, h2, n1, n2, s1, s2].all
        Char.isDigit
  | _ => false

/-- The validated `WebhookPayload` from `app/main.py` / `app/models.py`. -/
structure WebhookPayload where
  message_id : String
  from_ : String
  to_ : String
  ts : String
  text : String
deriving DecidableEq, Repr

/-- Read the optional `text` field (default `""`, must be a string when
present). -/
def getText (fields : List (String × JVal)) : Except String String :=
  match jlookup fields "text" with
  | none => .ok ""
  | some (JVal.str v) => .ok v
  | some _ => .error "Input should be a valid string: text"

/-- Read a required string field of the payload object. -/
def getStr (fields : List (String × JVal)) (k : String) :
    Except String String :=
  match jlookup fields k with
  | some (JVal.str v) => .ok v
  | some _ => .error ("Input should be a valid string: " ++ k)
  | none => .error ("Field required: " ++ k)

/-- `WebhookPayload(**data)` — pydantic construction and validation.

Checks, from the `Field` declarations in `app/main.py`:
`message_id` required with `min_length=1`; `from` (alias) and `to`
required matching `^\+\d+$`; `ts` required matching the timestamp
pattern; `text` optional, default `""`, `max_length=4096`.
Every failure carries a non-empty human-readable message. -/
def validatePayload (j : JVal) : Except String WebhookPayload :=
  match j with
  | JVal.obj fields =>
    match getStr fields "message_id" with
    | .error e => .error e
    | .ok mid =>
      if mid.length < 1 then
        .error "String should have at least 1 character: message_id"
      else
        match getStr fields "from" with
        | .error e => .error e
        | .ok f =>
          if !isPlusDigits f then
            .error "String should match pattern: from"
          else
            match getStr fields "to" with
            | .error e => .error e
            | .ok t =>
              if !isPlusDigits t then
                .error "String should match pattern: to"
              else
                match getStr fields "ts" with
                | .error e => .error e
                | .ok ts =>
                  if !isTsPattern ts then
                    .error "String should match pattern: ts"
                  else
                    match getText fields with
                    | .error e => .error e
                    | .ok txt =>
                      if txt.length > 4096 then
                        .error "String should have at most 4096 characters: text"
                      else
                        .ok ⟨mid, f, t, ts, txt⟩
  | _ => .error "argument after ** must be a mapping"

/-- An HTTP response: status code plus JSON body. -/
structure Resp where
  status : Nat
  body : JVal

/-- `200 {"status":"ok"}` — the fixed webhook success body. -/
def okResp : Resp := ⟨200, JVal.obj [("status", JVal.str "ok")]⟩

/-- `401 {"detail":"invalid signature"}`. -/
def unauthorizedResp : Resp :=
  ⟨401, JVal.obj [("detail", JVal.str "invalid signature")]⟩

/-- `422 {"detail": <validation message>}` — how FastAPI renders
`HTTPException(status_code=422, detail=...)`. -/
def validationResp (detail : String) : Resp :=
  ⟨422, JVal.obj [("detail", JVal.str detail)]⟩

/-- `500 {"detail":"Internal Server Error"}` — FastAPI's rendering of an
unhandled exception escaping the handler. -/
def serverErrorResp : Resp :=
  ⟨500, JVal.obj [("detail", JVal.str "Internal Server Error")]⟩

/-- An inbound `POST /webhook` request: the raw body bytes (kept
abstract as a `String` token) and the optional `X-Signature` header
(`Header(None)`). -/
structure Request where
  body : String
  xSignature : Option String
deriving DecidableEq, Repr

/-- The row dict built by the webhook handler from a validated payload
(`row_data` in `app/main.py`); `now` is
`datetime.utcnow().isoformat()+"Z"`.  All values are present
(non-NULL). -/
def rowData (p : WebhookPayload) (now : String) : MsgData :=
  ⟨p.message_id, some p.from_, some p.to_, some p.ts, some p.text, some now⟩

/-- The `POST /webhook` handler from `app/main.py`.

* `hmacHex body` abstracts
  `hmac.new(settings.WEBHOOK_SECRET.encode(), body, sha256).hexdigest()`;
* `parse body` abstracts `await request.json()` (`none` = parse error);
* `ioFail` models a storage I/O failure during the insert;
* `now` is the server clock reading for `created_at`.

Control flow, in source order: `if not x_signature` → 401; constant-time
compare against the expected hex digest → 401 on mismatch; JSON parse +
`WebhookPayload(**data)` with any exception → 422; `insert_message`, and
`{"status":"ok"}` whether it returned `True` or `False`.  An uncaught
storage exception escapes the handler → 500. -/
def webhook (hmacHex : String → String) (parse : String → Option JVal)
    (ioFail : Bool) (now : String) (req : Request) (s : Store) :
    Resp × Store :=
  match req.xSignature with
  | none => (unauthorizedResp, s)
  | some sig =>
    if sig = "" then (unauthorizedResp, s)
    else if sig ≠ hmacHex req.body then (unauthorizedResp, s)
    else
      match parse req.body with
      | none => (validationResp "Expecting value: line 1 column 1 (char 0)", s)
      | some j =>
        match validatePayload j with
        | .error e => (validationResp e, s)
        | .ok p =>
          match insert_message ioFail s (rowData p now) with
          | .error _ => (serverErrorResp, s)
          | .ok (_, s') => (okResp, s')

/-! ## SQLite TEXT comparison (BINARY collation)

SQLite compares TEXT values with `memcmp` on their UTF-8 encodings; on
UTF-8, byte order coincides with code-point order, so we compare the
character lists lexicographically. -/

/-- Lexicographic strict order on character lists (SQLite BINARY
collation). -/
def charListLt : List Char → List Char → Bool
  | [], [] => false
  | [], _ :: _ => true
  | _ :: _, [] => false
  | a :: as, b :: bs =>
      if a < b then true
      else if b < a then false
      else charListLt as bs

/-- `a < b` for SQLite TEXT values. -/
def strLt (a b : String) : Bool := charListLt a.data b.data

/-- `a <= b` for SQLite TEXT values. -/
def strLe (a b : String) : Bool := strLt a b || a == b

/-! ## SQLite `LIKE`

`list_messages` builds the pattern `f"%{q}%"` with no `ESCAPE` clause, so
`%` and `_` inside `q` keep their wildcard meaning.  SQLite's default
`LIKE` is case-insensitive for the ASCII letters A–Z. -/

/-- SQLite's ASCII case folding: A–Z map to a–z, everything else is
unchanged. -/
def asciiLower (c : Char) : Char :=
  if 'A' ≤ c ∧ c ≤ 'Z' then Char.ofNat (c.toNat + 32) else c

/-- SQLite `LIKE` matching: `%` matches any sequence of characters, `_`
matches exactly one, and other characters match ASCII-case-insensitively. -/
def likeMatch : List Char → List Char → Bool
  | [], [] => true
  | [], _ :: _ => false
  | '%' :: ps, cs =>
      likeMatch ps cs ||
        (match cs with
         | [] => false
         | _ :: cs' => likeMatch ('%' :: ps) cs')
  | '_' :: _, [] => false
  | '_' :: ps, _ :: cs => likeMatch ps cs
  | _ :: _, [] => false
  | p :: ps, c :: cs => (asciiLower p == asciiLower c) && likeMatch ps cs
termination_by ps cs => (ps.length, cs.length)

/-- Literal (case-sensitive) substring containment — the spec's
`textContains` filter, used to compare against the code's `LIKE`
behaviour.  `hasSubstr haystack needle`. -/
def hasSubstr : List Char → List Char → Bool
  | h, n =>
      n.isPrefixOf h ||
        (match h with
         | [] => false
         | _ :: h' => hasSubstr h' n)

/-! ## `GET /messages` -/

/-- Query parameters of `GET /messages`.  `limit` and `offset` arrive
already range-checked by FastAPI (`ge=1, le=100` resp. `ge=0`;
out-of-range values are rejected before the handler runs and are not
modelled).  `from_`, `since` and `q` default to `None`. -/
structure ListQuery where
  limit : Nat
  offset : Nat
  from_ : Option String
  since : Option String
  q : Option String

/-- Python truthiness of an optional string parameter: `if from_:` is
false both for `None` and for the empty string. -/
def truthy : Option String → Bool
  | none => false
  | some x => x ≠ ""

/-- The WHERE clause assembled by `list_messages`: one conjunct per
truthy parameter — `from_msisdn = :from_val`, `ts >= :since_val`,
`text LIKE :q_val` with `q_val = f"%{q}%"` (a NULL `text` makes the LIKE
clause NULL, excluding the row). -/
def rowMatches (lq : ListQuery) (r : Row) : Bool :=
  (!truthy lq.from_ || r.from_msisdn == lq.from_.getD "") &&
  (!truthy lq.since || strLe (lq.since.getD "") r.ts) &&
  (!truthy lq.q ||
    (match r.text with
     | none => false
     | some t => likeMatch ('%' :: (lq.q.getD "").data ++ ['%']) t.data))

/-- `ORDER BY ts ASC, message_id ASC`: row `a` may precede row `b`. -/
def rowLe (a b : Row) : Bool :=
  strLt a.ts b.ts || (a.ts == b.ts && strLe a.message_id b.message_id)

/-- Insert a row into a list sorted by `rowLe`, keeping it sorted. -/
def insertSorted (r : Row) : List Row → List Row
  | [] => [r]
  | x :: xs => if rowLe r x then r :: x :: xs else x :: insertSorted r xs

/-- Sorting by `ORDER BY ts ASC, message_id ASC` (insertion sort; any
comparison sort realises the same SQL semantics). -/
def sortRows (l : List Row) : List Row :=
  l.foldr insertSorted []

/-- The JSON object returned by `GET /messages`:
`{"data": ..., "total": ..., "limit": ..., "offset": ...}`. -/
structure ListResp where
  data : List Row
  total : Nat
  limit : Nat
  offset : Nat
deriving DecidableEq, Repr

/-- The `GET /messages` handler from `app/main.py`: one `COUNT(*)` under
the WHERE clause, then the page
`SELECT ... WHERE ... ORDER BY ts ASC, message_id ASC LIMIT :limit
OFFSET :offset`. -/
def list_messages (lq : ListQuery) (s : Store) : ListResp :=
  let filtered := s.filter (rowMatches lq)
  ⟨((sortRows filtered).drop lq.offset).take lq.limit,
   filtered.length, lq.limit, lq.offset⟩

/-! ## `GET /stats` -/

/-- SQL `MIN` over a column's values (all `ts` values are NOT NULL). -/
def sqlMin : List String → Option String
  | [] => none
  | x :: xs =>
      match sqlMin xs with
      | none => some x
      | some m => if strLt x m then some x else some m

/-- SQL `MAX` over a column's values. -/
def sqlMax : List String → Option String
  | [] => none
  | x :: xs =>
      match sqlMax xs with
      | none => some x
      | some m => if strLt m x then some x else some m

/-- The aggregate part of `GET /stats` (`app/main.py`):
`COUNT(*)`, `COUNT(DISTINCT from_msisdn)`, `MIN(ts)`, `MAX(ts)`.
The `messages_per_sender` top-10 list is not modelled; no claim
concerns it. -/
structure Stats where
  total_messages : Nat
  senders_count : Nat
  first_message_ts : Option String
  last_message_ts : Option String
deriving DecidableEq, Repr

/-- The `GET /stats` handler from `app/main.py`. -/
def get_stats (s : Store) : Stats :=
  ⟨s.length,
   (s.map Row.from_msisdn).dedup.length,
   sqlMin (s.map Row.ts),
   sqlMax (s.map Row.ts)⟩

/-- Number of stored rows carrying a given `message_id`. -/
def countId (s : Store) (id : String) : Nat :=
  (s.filter (fun r => r.message_id == id)).length

/-! ## Order lemmas for the SQLite TEXT comparison -/

theorem charListLt_cons_iff {x y : Char} {xs ys : List Char} :
    charListLt (x :: xs) (y :: ys) = true ↔
      x < y ∨ (x = y ∧ charListLt xs ys = true) := by
  simp only [charListLt]
  split_ifs with h1 h2
  · simp [h1]
  · simp only [Bool.false_eq_true, false_iff]
    rintro (h | ⟨rfl, _⟩)
    · exact h1 h
    · exact lt_irrefl x h2
  · have hxy : x = y := le_antisymm (not_lt.mp h2) (not_lt.mp h1)
    simp [hxy, lt_irrefl]

theorem charListLt_irrefl (a : List Char) : charListLt a a = false := by
  induction a with
  | nil => rfl
  | cons c cs ih => simp [charListLt, ih]

theorem charListLt_trans : ∀ {a b c : List Char},
    charListLt a b = true → charListLt b c = true → charListLt a c = true
  | [], _ :: _, _ :: _, _, _ => rfl
  | x :: xs, y :: ys, z :: zs, h1, h2 => by
      rw [charListLt_cons_iff] at h1 h2 ⊢
      rcases h1 with h1 | ⟨rfl, h1⟩
      · rcases h2 with h2 | ⟨rfl, _⟩
        · exact Or.inl (lt_trans h1 h2)
        · exact Or.inl h1
      · rcases h2 with h2 | ⟨rfl, h2⟩
        · exact Or.inl h2
        · exact Or.inr ⟨rfl, charListLt_trans h1 h2⟩

theorem charListLt_asymm {a b : List Char} (h : charListLt a b = true) :
    charListLt b a = false := by
  by_contra hc
  have hba : charListLt b a = true := by
    cases hh : charListLt b a
    · exact absurd hh hc
    · rfl
  have := charListLt_trans h hba
  rw [charListLt_irrefl] at this
  exact Bool.false_ne_true this

theorem charListLt_conn : ∀ {a b : List Char},
    charListLt a b = false → charListLt b a = false → a = b
  | [], [], _, _ => rfl
  | [], _ :: _, h, _ => by simp [charListLt] at h
  | _ :: _, [], _, h => by simp [charListLt] at h
  | x :: xs, y :: ys, h1, h2 => by
      have h1' : ¬(x < y ∨ (x = y ∧ charListLt xs ys = true)) := by
        rw [← charListLt_cons_iff]; simp [h1]
      have h2' : ¬(y < x ∨ (y = x ∧ charListLt ys xs = true)) := by
        rw [← charListLt_cons_iff]; simp [h2]
      push_neg at h1' h2'
      have hxy : x = y := le_antisymm h2'.1 h1'.1
      have hxs : charListLt xs ys = false := by
        cases hh : charListLt xs ys
        · rfl
        · exact absurd hh (h1'.2 hxy)
      have hys : charListLt ys xs = false := by
        cases hh : charListLt ys xs
        · rfl
        · exact absurd hh (h2'.2 hxy.symm)
      rw [hxy, charListLt_conn hxs hys]

theorem strLt_irrefl (a : String) : strLt a a = false :=
  charListLt_irrefl a.data

theorem strLt_trans {a b c : String} (h1 : strLt a b = true)
    (h2 : strLt b c = true) : strLt a c = true :=
  charListLt_trans h1 h2

theorem strLt_asymm {a b : String} (h : strLt a b = true) :
    strLt b a = false :=
  charListLt_asymm h

theorem strLt_conn {a b : String} (h1 : strLt a b = false)
    (h2 : strLt b a = false) : a = b :=
  String.ext (charListLt_conn h1 h2)

theorem strLe_refl (a : String) : strLe a a = true := by
  simp [strLe]

theorem strLe_of_strLt {a b : String} (h : strLt a b = true) :
    strLe a b = true := by
  simp [strLe, h]

theorem strLe_of_eq {a b : String} (h : a = b) : strLe a b = true := by
  subst h; exact strLe_refl a

theorem strLe_iff {a b : String} :
    strLe a b = true ↔ strLt a b = true ∨ a = b := by
  simp [strLe, Bool.or_eq_true, beq_iff_eq]

theorem strLe_total (a b : String) :
    strLe a b = true ∨ strLe b a = true := by
  cases h1 : strLt a b
  · cases h2 : strLt b a
    · exact Or.inl (strLe_of_eq (strLt_conn h1 h2))
    · exact Or.inr (strLe_of_strLt h2)
  · exact Or.inl (strLe_of_strLt h1)

theorem strLe_trans {a b c : String} (h1 : strLe a b = true)
    (h2 : strLe b c = true) : strLe a c = true := by
  rcases strLe_iff.mp h1 with h1 | rfl
  · rcases strLe_iff.mp h2 with h2 | rfl
    · exact strLe_of_strLt (strLt_trans h1 h2)
    · exact strLe_of_strLt h1
  · exact h2

theorem strLe_antisymm {a b : String} (h1 : strLe a b = true)
    (h2 : strLe b a = true) : a = b := by
  rcases strLe_iff.mp h1 with h1 | rfl
  · rcases strLe_iff.mp h2 with h2 | rfl
    · exact absurd h2 (by simp [strLt_asymm h1])
    · rfl
  · rfl

theorem strLt_of_not_strLe {a b : String} (h : strLe a b = false) :
    strLt b a = true := by
  rcases strLe_total a b with hh | hh
  · exact absurd hh (by simp [h])
  · rcases strLe_iff.mp hh with hh | rfl
    · exact hh
    · rw [strLe_refl] at h; exact absurd h (by simp)

theorem strLt_le_trans {a b c : String} (h1 : strLt a b = true)
    (h2 : strLe b c = true) : strLt a c = true := by
  rcases strLe_iff.mp h2 with h2 | rfl
  · exact strLt_trans h1 h2
  · exact h1

theorem strLe_lt_trans {a b c : String} (h1 : strLe a b = true)
    (h2 : strLt b c = true) : strLt a c = true := by
  rcases strLe_iff.mp h1 with h1 | rfl
  · exact strLt_trans h1 h2
  · exact h2

theorem strLe_of_not_strLt {a b : String} (h : strLt a b = false) :
    strLe b a = true := by
  cases h2 : strLt b a
  · exact strLe_of_eq (strLt_conn h2 h)
  · exact strLe_of_strLt h2

/-! ## `ORDER BY ts ASC, message_id ASC` is a total preorder on rows -/

/-- The `ORDER BY` relation as a proposition. -/
def RowLE (a b : Row) : Prop := rowLe a b = true

instance : DecidablePred fun p : Row × Row => RowLE p.1 p.2 := by
  intro p; unfold RowLE; infer_instance

theorem rowLe_iff {a b : Row} :
    rowLe a b = true ↔
      strLt a.ts b.ts = true ∨
        (a.ts = b.ts ∧ strLe a.message_id b.message_id = true) := by
  simp [rowLe, Bool.or_eq_true, Bool.and_eq_true, beq_iff_eq]

theorem rowLe_refl (a : Row) : RowLE a a := by
  rw [RowLE, rowLe_iff]
  exact Or.inr ⟨rfl, strLe_refl _⟩

theorem rowLe_total (a b : Row) : RowLE a b ∨ RowLE b a := by
  rw [RowLE, RowLE, rowLe_iff, rowLe_iff]
  cases h1 : strLt a.ts b.ts
  · cases h2 : strLt b.ts a.ts
    · have hts : a.ts = b.ts := strLt_conn h1 h2
      rcases strLe_total a.message_id b.message_id with h | h
      · exact Or.inl (Or.inr ⟨hts, h⟩)
      · exact Or.inr (Or.inr ⟨hts.symm, h⟩)
    · exact Or.inr (Or.inl rfl)
  · exact Or.inl (Or.inl rfl)

theorem rowLe_trans {a b c : Row} (h1 : RowLE a b) (h2 : RowLE b c) :
    RowLE a c := by
  rw [RowLE, rowLe_iff] at h1 h2 ⊢
  rcases h1 with h1 | ⟨hts1, h1⟩
  · rcases h2 with h2 | ⟨hts2, _⟩
    · exact Or.inl (strLt_trans h1 h2)
    · exact Or.inl (hts2 ▸ h1)
  · rcases h2 with h2 | ⟨hts2, h2⟩
    · exact Or.inl (hts1 ▸ h2)
    · exact Or.inr ⟨hts1.trans hts2, strLe_trans h1 h2⟩

/-- Mutually `ORDER BY`-comparable rows agree on the sort key
`(ts, message_id)`. -/
theorem rowLe_antisymm_key {a b : Row} (h1 : RowLE a b) (h2 : RowLE b a) :
    a.ts = b.ts ∧ a.message_id = b.message_id := by
  rw [RowLE, rowLe_iff] at h1 h2
  rcases h1 with h1 | ⟨hts1, h1⟩
  · rcases h2 with h2 | ⟨hts2, _⟩
    · exact absurd h2 (by simp [strLt_asymm h1])
    · rw [hts2] at h1
      exact absurd h1 (by simp [strLt_irrefl])
  · rcases h2 with h2 | ⟨_, h2⟩
    · rw [hts1] at h2
      exact absurd h2 (by simp [strLt_irrefl])
    · exact ⟨hts1, strLe_antisymm h1 h2⟩

/-! ## Sorting lemmas -/

theorem insertSorted_perm (r : Row) (l : List Row) :
    (insertSorted r l).Perm (r :: l) := by
  induction l with
  | nil => exact List.Perm.refl _
  | cons x xs ih =>
      by_cases h : rowLe r x = true
      · simp [insertSorted, h]
      · simp only [insertSorted, h, if_false]
        exact (ih.cons x).trans (List.Perm.swap r x xs)

theorem sortRows_perm (l : List Row) : (sortRows l).Perm l := by
  induction l with
  | nil => exact List.Perm.refl _
  | cons x xs ih =>
      exact (insertSorted_perm x (sortRows xs)).trans (ih.cons x)

theorem insertSorted_sorted {l : List Row} (r : Row)
    (h : l.Pairwise RowLE) : (insertSorted r l).Pairwise RowLE := by
  induction l with
  | nil => simp [insertSorted]
  | cons x xs ih =>
      by_cases hrx : rowLe r x = true
      · simp only [insertSorted, hrx, if_true]
        refine List.Pairwise.cons ?_ h
        intro b hb
        rcases List.mem_cons.mp hb with rfl | hb'
        · exact hrx
        · exact rowLe_trans hrx (List.rel_of_pairwise_cons h hb')
      · simp only [insertSorted, hrx, if_false]
        have hxr : RowLE x r := by
          rcases rowLe_total r x with hh | hh
          · exact absurd hh hrx
          · exact hh
        refine List.Pairwise.cons ?_ (ih h.tail)
        intro b hb
        have hb' : b ∈ r :: xs := (insertSorted_perm r xs).mem_iff.mp hb
        rcases List.mem_cons.mp hb' with rfl | hb2
        · exact hxr
        · exact List.rel_of_pairwise_cons h hb2

theorem sortRows_sorted (l : List Row) : (sortRows l).Pairwise RowLE := by
  induction l with
  | nil => simp [sortRows]
  | cons x xs ih => exact insertSorted_sorted x ih

/-- Two sorted permutations of the same rows are equal, provided
`message_id` identifies rows (the PRIMARY KEY invariant). -/
theorem sorted_perm_eq : ∀ {l₁ l₂ : List Row}, l₁.Perm l₂ →
    l₁.Pairwise RowLE → l₂.Pairwise RowLE →
    (∀ a ∈ l₁, ∀ b ∈ l₁, a.message_id = b.message_id → a = b) →
    l₁ = l₂
  | [], l₂, p, _, _, _ => p.nil_eq
  | a :: t₁, [], p, _, _, _ => absurd p.symm.nil_eq (by simp)
  | a :: t₁, b :: t₂, p, h₁, h₂, inj => by
      have hab : a = b := by
        by_contra hne
        have ha2 : a ∈ b :: t₂ := p.mem_iff.mp (by simp)
        have hb1 : b ∈ a :: t₁ := p.symm.mem_iff.mp (by simp)
        have hbt : b ∈ t₁ := by
          rcases List.mem_cons.mp hb1 with hh | hh
          · exact absurd hh.symm hne
          · exact hh
        have hat : a ∈ t₂ := by
          rcases List.mem_cons.mp ha2 with hh | hh
          · exact absurd hh hne
          · exact hh
        have h1 : RowLE a b := List.rel_of_pairwise_cons h₁ hbt
        have h2 : RowLE b a := List.rel_of_pairwise_cons h₂ hat
        exact hne (inj a (by simp) b (by simp [hbt])
          (rowLe_antisymm_key h1 h2).2)
      subst hab
      have p' : t₁.Perm t₂ := p.cons_inv
      have inj' : ∀ x ∈ t₁, ∀ y ∈ t₁, x.message_id = y.message_id → x = y :=
        fun x hx y hy => inj x (by simp [hx]) y (by simp [hy])
      rw [sorted_perm_eq p' h₁.tail h₂.tail inj']

/-- Everything in the taken prefix of a sorted list is `≤` everything in
the dropped remainder. -/
theorem sorted_take_drop {l : List Row} (h : l.Pairwise RowLE) (n : Nat) :
    ∀ a ∈ l.take n, ∀ b ∈ l.drop n, RowLE a b := by
  have := (List.take_append_drop n l) ▸ h
  exact (List.pairwise_append.mp this).2.2

/-! ## SQL aggregate lemmas -/

theorem sqlMin_eq_none_iff (l : List String) : sqlMin l = none ↔ l = [] := by
  cases l with
  | nil => simp [sqlMin]
  | cons x xs =>
      simp only [sqlMin]
      cases sqlMin xs with
      | none => simp
      | some m => by_cases h : strLt x m = true <;> simp [h]

theorem sqlMax_eq_none_iff (l : List String) : sqlMax l = none ↔ l = [] := by
  cases l with
  | nil => simp [sqlMax]
  | cons x xs =>
      simp only [sqlMax]
      cases sqlMax xs with
      | none => simp
      | some m => by_cases h : strLt m x = true <;> simp [h]

theorem sqlMin_mem : ∀ {l : List String} {m : String},
    sqlMin l = some m → m ∈ l := by
  intro l
  induction l with
  | nil => intro m h; simp [sqlMin] at h
  | cons x xs ih =>
      intro m h
      simp only [sqlMin] at h
      cases hxs : sqlMin xs with
      | none =>
          simp only [hxs] at h
          cases h
          simp
      | some m' =>
          simp only [hxs] at h
          by_cases hlt : strLt x m' = true
          · rw [if_pos hlt] at h
            cases h
            simp
          · rw [if_neg hlt] at h
            cases h
            exact List.mem_cons_of_mem x (ih hxs)

theorem sqlMin_isLB : ∀ {l : List String} {m : String},
    sqlMin l = some m → ∀ x ∈ l, strLe m x = true := by
  intro l
  induction l with
  | nil => intro m h; simp [sqlMin] at h
  | cons x xs ih =>
      intro m h
      simp only [sqlMin] at h
      cases hxs : sqlMin xs with
      | none =>
          simp only [hxs] at h
          cases h
          have hnil : xs = [] := (sqlMin_eq_none_iff xs).mp hxs
          subst hnil
          intro y hy
          rcases List.mem_cons.mp hy with rfl | hy
          · exact strLe_refl _
          · simp at hy
      | some m' =>
          simp only [hxs] at h
          have hlb' := ih hxs
          by_cases hlt : strLt x m' = true
          · rw [if_pos hlt] at h
            cases h
            intro y hy
            rcases List.mem_cons.mp hy with rfl | hy
            · exact strLe_refl _
            · exact strLe_of_strLt (strLt_le_trans hlt (hlb' y hy))
          · rw [if_neg hlt] at h
            cases h
            intro y hy
            rcases List.mem_cons.mp hy with rfl | hy
            · exact strLe_of_not_strLt (by simpa using hlt)
            · exact hlb' y hy

/-- `MIN(ts)` returns exactly the least stored value. -/
theorem sqlMin_eq_some_iff (l : List String) (m : String) :
    sqlMin l = some m ↔ m ∈ l ∧ ∀ x ∈ l, strLe m x = true := by
  constructor
  · intro h
    exact ⟨sqlMin_mem h, sqlMin_isLB h⟩
  · rintro ⟨hm, hlb⟩
    cases hh : sqlMin l with
    | none =>
        rw [(sqlMin_eq_none_iff l).mp hh] at hm
        simp at hm
    | some m'' =>
        have h1 : strLe m m'' = true := hlb m'' (sqlMin_mem hh)
        have h2 : strLe m'' m = true := sqlMin_isLB hh m hm
        rw [strLe_antisymm h2 h1]

theorem sqlMax_mem : ∀ {l : List String} {m : String},
    sqlMax l = some m → m ∈ l := by
  intro l
  induction l with
  | nil => intro m h; simp [sqlMax] at h
  | cons x xs ih =>
      intro m h
      simp only [sqlMax] at h
      cases hxs : sqlMax xs with
      | none =>
          simp only [hxs] at h
          cases h
          simp
      | some m' =>
          simp only [hxs] at h
          by_cases hlt : strLt m' x = true
          · rw [if_pos hlt] at h
            cases h
            simp
          · rw [if_neg hlt] at h
            cases h
            exact List.mem_cons_of_mem x (ih hxs)

theorem sqlMax_isUB : ∀ {l : List String} {m : String},
    sqlMax l = some m → ∀ x ∈ l, strLe x m = true := by
  intro l
  induction l with
  | nil => intro m h; simp [sqlMax] at h
  | cons x xs ih =>
      intro m h
      simp only [sqlMax] at h
      cases hxs : sqlMax xs with
      | none =>
          simp only [hxs] at h
          cases h
          have hnil : xs = [] := (sqlMax_eq_none_iff xs).mp hxs
          subst hnil
          intro y hy
          rcases List.mem_cons.mp hy with rfl | hy
          · exact strLe_refl _
          · simp at hy
      | some m' =>
          simp only [hxs] at h
          have hub' := ih hxs
          by_cases hlt : strLt m' x = true
          · rw [if_pos hlt] at h
            cases h
            intro y hy
            rcases List.mem_cons.mp hy with rfl | hy
            · exact strLe_refl _
            · exact strLe_of_strLt (strLe_lt_trans (hub' y hy) hlt)
          · rw [if_neg hlt] at h
            cases h
            intro y hy
            rcases List.mem_cons.mp hy with rfl | hy
            · exact strLe_of_not_strLt (by simpa using hlt)
            · exact hub' y hy

/-- `MAX(ts)` returns exactly the greatest stored value. -/
theorem sqlMax_eq_some_iff (l : List String) (m : String) :
    sqlMax l = some m ↔ m ∈ l ∧ ∀ x ∈ l, strLe x m = true := by
  constructor
  · intro h
    exact ⟨sqlMax_mem h, sqlMax_isUB h⟩
  · rintro ⟨hm, hub⟩
    cases hh : sqlMax l with
    | none =>
        rw [(sqlMax_eq_none_iff l).mp hh] at hm
        simp at hm
    | some m'' =>
        have h1 : strLe m'' m = true := hub m'' (sqlMax_mem hh)
        have h2 : strLe m m'' = true := sqlMax_isUB hh m hm
        rw [strLe_antisymm h1 h2]

/-! ## `message_id` counting -/

theorem hasId_iff_exists (s : Store) (id : String) :
    hasId s id = true ↔ ∃ r ∈ s, r.message_id = id := by
  simp [hasId, List.any_eq_true, beq_iff_eq]

theorem countId_eq_zero_iff (s : Store) (id : String) :
    countId s id = 0 ↔ hasId s id = false := by
  rw [countId, List.length_eq_zero, List.filter_eq_nil_iff]
  constructor
  · intro h
    cases hh : hasId s id
    · rfl
    · rcases (hasId_iff_exists s id).mp hh with ⟨r, hr, hrid⟩
      exact absurd (by simp [hrid]) (h r hr)
  · intro h r hr hid
    have : hasId s id = true :=
      (hasId_iff_exists s id).mpr ⟨r, hr, by simpa using hid⟩
    rw [h] at this
    exact Bool.false_ne_true this

theorem countId_append (s₁ s₂ : Store) (id : String) :
    countId (s₁ ++ s₂) id = countId s₁ id + countId s₂ id := by
  simp [countId, List.filter_append]

theorem countId_singleton_self (r : Row) (id : String)
    (h : r.message_id = id) : countId [r] id = 1 := by
  simp [countId, List.filter, h]

/-! ## Validator lemmas -/

theorem getStr_ok {fields : List (String × JVal)} {k v : String}
    (h : getStr fields k = .ok v) :
    jlookup fields k = some (JVal.str v) := by
  unfold getStr at h
  split at h
  · cases h
    assumption
  · cases h
  · cases h

theorem getText_ok {fields : List (String × JVal)} {v : String}
    (h : getText fields = .ok v) :
    jlookup fields "text" = none ∧ v = "" ∨
      jlookup fields "text" = some (JVal.str v) := by
  unfold getText at h
  split at h
  · cases h
    exact Or.inl ⟨by assumption, rfl⟩
  · cases h
    exact Or.inr (by assumption)
  · cases h

/-- Soundness of the validator: a payload it accepts really has all the
required fields, in shape. -/
theorem validatePayload_ok {j : JVal} {p : WebhookPayload}
    (h : validatePayload j = .ok p) :
    ∃ fields, j = JVal.obj fields ∧
      jlookup fields "message_id" = some (JVal.str p.message_id) ∧
      1 ≤ p.message_id.length ∧
      jlookup fields "from" = some (JVal.str p.from_) ∧
      isPlusDigits p.from_ = true ∧
      jlookup fields "to" = some (JVal.str p.to_) ∧
      isPlusDigits p.to_ = true ∧
      jlookup fields "ts" = some (JVal.str p.ts) ∧
      isTsPattern p.ts = true ∧
      (jlookup fields "text" = none ∧ p.text = "" ∨
        jlookup fields "text" = some (JVal.str p.text)) ∧
      p.text.length ≤ 4096 := by
  unfold validatePayload at h
  split at h
  case h_2 => cases h
  case h_1 fields =>
    refine ⟨fields, rfl, ?_⟩
    split at h
    · cases h
    case h_2 mid hmid =>
      split at h
      · cases h
      case isFalse hlen =>
        split at h
        · cases h
        case h_2 f hf =>
          split at h
          · cases h
          case isFalse hfp =>
            split at h
            · cases h
            case h_2 t ht =>
              split at h
              · cases h
              case isFalse htp =>
                split at h
                · cases h
                case h_2 ts hts =>
                  split at h
                  · cases h
                  case isFalse htsp =>
                    split at h
                    · cases h
                    case h_2 txt htxt =>
                      split at h
                      · cases h
                      case isFalse htxtlen =>
                        cases h
                        refine ⟨getStr_ok hmid, not_lt.mp hlen, getStr_ok hf,
                          by simpa using hfp, getStr_ok ht,
                          by simpa using htp, getStr_ok hts,
                          by simpa using htsp, getText_ok htxt,
                          not_lt.mp htxtlen⟩

theorem str_append_ne_empty {a : String} (b : String) (h : a ≠ "") :
    a ++ b ≠ "" := by
  intro hc
  apply h
  apply String.ext
  have : (a ++ b).data = a.data ++ b.data := String.data_append a b
  rw [hc] at this
  have := this.symm
  rcases List.append_eq_nil.mp this with ⟨ha, _⟩
  simp [ha]

theorem getStr_error {fields : List (String × JVal)} {k e : String}
    (h : getStr fields k = .error e) : e ≠ "" := by
  unfold getStr at h
  split at h
  · cases h
  · cases h
    exact str_append_ne_empty k (by decide)
  · cases h
    exact str_append_ne_empty k (by decide)

theorem getText_error {fields : List (String × JVal)} {e : String}
    (h : getText fields = .error e) : e ≠ "" := by
  unfold getText at h
  split at h
  · cases h
  · cases h
  · cases h
    decide

/-- Every rejection message of the validator is non-empty. -/
theorem validatePayload_error {j : JVal} {e : String}
    (h : validatePayload j = .error e) : e ≠ "" := by
  unfold validatePayload at h
  split at h
  case h_2 => cases h; decide
  case h_1 fields =>
    split at h
    case h_1 => cases h; exact getStr_error (by assumption)
    case h_2 =>
      split at h
      · cases h; decide
      split at h
      case h_1 => cases h; exact getStr_error (by assumption)
      case h_2 =>
        split at h
        · cases h; decide
        split at h
        case h_1 => cases h; exact getStr_error (by assumption)
        case h_2 =>
          split at h
          · cases h; decide
          split at h
          case h_1 => cases h; exact getStr_error (by assumption)
          case h_2 =>
            split at h
            · cases h; decide
            split at h
            case h_1 => cases h; exact getText_error (by assumption)
            case h_2 =>
              split at h
              · cases h; decide
              · cases h

/-! ## Webhook handler lemmas -/

/-- With a valid signature and a validated payload, the handler reduces
to the insert step. -/
theorem webhook_valid_eq (hmacHex : String → String)
    (parse : String → Option JVal) (ioFail : Bool) (now : String)
    (req : Request) (s : Store) (sig : String)
    (hs : req.xSignature = some sig) (hne : sig ≠ "")
    (hm : sig = hmacHex req.body) (j : JVal)
    (hj : parse req.body = some j) (p : WebhookPayload)
    (hp : validatePayload j = .ok p) :
    webhook hmacHex parse ioFail now req s =
      match insert_message ioFail s (rowData p now) with
      | .error _ => (serverErrorResp, s)
      | .ok (_, s') => (okResp, s') := by
  unfold webhook
  rw [hs, ← hm]
  simp [hne, hj, hp]

/-- For the row dict built from a validated payload every NOT NULL column
is bound, so the insert reduces to the duplicate check. -/
theorem insert_message_rowData (s : Store) (p : WebhookPayload)
    (now : String) :
    insert_message false s (rowData p now) =
      if hasId s p.message_id then .ok (false, s)
      else .ok (true,
        s ++ [⟨p.message_id, p.from_, p.to_, p.ts, some p.text, now⟩]) := by
  simp [insert_message, rowData]

theorem hasId_append_self (s : Store) (r : Row) :
    hasId (s ++ [r]) r.message_id = true := by
  simp [hasId, List.any_append]

/-- C2: a request whose `X-Signature` header is absent, empty, or different
from the hex HMAC-SHA256 of the raw body is answered
`401 {"detail":"invalid signature"}`, with the store untouched — and the
result does not depend on the JSON parser (`parse` is universally
quantified), so no parsing or persistence happens. -/
theorem claim_C2_invalid_signature_401 (hmacHex : String → String)
    (parse : String → Option JVal) (ioFail : Bool) (now : String)
    (req : Request) (s : Store)
    (h : ∀ sig, req.xSignature = some sig →
      sig = "" ∨ sig ≠ hmacHex req.body) :
    webhook hmacHex parse ioFail now req s = (unauthorizedResp, s) := by
  unfold webhook
  cases hs : req.xSignature with
  | none => rfl
  | some sig =>
      by_cases hemp : sig = ""
      · simp [hemp]
      · rcases h sig hs with rfl | hne
        · exact absurd rfl hemp
        · simp [hemp, hne]

theorem claim_C2_witness :
    webhook (fun _ => "aaaa") (fun _ => none) false "now"
      ⟨"body", some "zz"⟩ [] = (unauthorizedResp, []) :=
  claim_C2_invalid_signature_401 _ _ _ _ _ _
    (by
      intro sig hsig
      injection hsig with h'
      subst h'
      exact Or.inr (by decide))

/-- C4: with every NOT NULL column bound (a well-formed message),
`insert_message` returns `True` exactly when it appended the new row, and
returns `False` — leaving the store byte-for-byte unchanged — exactly when
a row with the same `message_id` already exists. -/
theorem claim_C4_insert_idempotent (s : Store) (m : MsgData)
    (f t ts ca : String) (hf : m.from_ = some f) (ht : m.to_ = some t)
    (hts : m.ts = some ts) (hca : m.created_at = some ca) :
    (insert_message false s m =
        .ok (true, s ++ [⟨m.message_id, f, t, ts, m.text, ca⟩]) ↔
      hasId s m.message_id = false) ∧
    (insert_message false s m = .ok (false, s) ↔
      hasId s m.message_id = true) := by
  simp only [insert_message, Bool.false_eq_true, if_false, hf, ht, hts, hca]
  cases hh : hasId s m.message_id <;> simp [hh]

theorem claim_C4_witness :
    (insert_message false []
        ⟨"m1", some "+111", some "+999", some "2025-01-15T10:00:00Z",
         some "hi", some "2025-01-15T10:00:01Z"⟩ =
      .ok (true,
        [⟨"m1", "+111", "+999", "2025-01-15T10:00:00Z", some "hi",
          "2025-01-15T10:00:01Z"⟩])) ∧
    (insert_message false
        [⟨"m1", "+111", "+999", "2025-01-15T10:00:00Z", some "hi",
          "2025-01-15T10:00:01Z"⟩]
        ⟨"m1", some "+222", some "+998", some "2026-01-15T10:00:00Z",
         some "bye", some "2026-01-15T10:00:01Z"⟩ =
      .ok (false,
        [⟨"m1", "+111", "+999", "2025-01-15T10:00:00Z", some "hi",
          "2025-01-15T10:00:01Z"⟩])) :=
  ⟨((claim_C4_insert_idempotent [] _ "+111" "+999" "2025-01-15T10:00:00Z"
      "2025-01-15T10:00:01Z" rfl rfl rfl rfl).1).mpr (by decide),
   ((claim_C4_insert_idempotent _ _ "+222" "+998" "2026-01-15T10:00:00Z"
      "2026-01-15T10:00:01Z" rfl rfl rfl rfl).2).mpr (by decide)⟩

/-- The `msg_data` dict of a failing insert attempt that is NOT a
duplicate: `from` is `None`, so the INSERT violates the
`from_msisdn NOT NULL` constraint (an `IntegrityError` that is not a
duplicate `message_id`). -/
def badMsgData : MsgData :=
  ⟨"m1", none, some "+999", some "2025-01-01T10:00:00Z", some "hi",
   some "2025-01-01T10:00:00Z"⟩

/-- C5: the code violates the claim.  On an empty store (so no duplicate
`message_id` exists), an insert attempt that fails the NOT NULL
constraint is caught by the bare `except aiosqlite.IntegrityError` and
reported as `False` — i.e. as a duplicate — instead of propagating as a
storage error. -/
theorem claim_C5_integrity_error_swallowed :
    insert_message false [] badMsgData = .ok (false, []) ∧
    hasId [] badMsgData.message_id = false :=
  ⟨rfl, rfl⟩

/-- C1: posting the same valid, correctly-signed payload twice gives two
`200 {"status":"ok"}` responses (identical whether the insert created the
row or found the duplicate), and afterwards exactly one row with that
`message_id` is stored. -/
theorem claim_C1_webhook_idempotent
    (hmacHex : String → String) (parse : String → Option JVal)
    (req : Request) (sig : String) (hs : req.xSignature = some sig)
    (hne : sig ≠ "") (hm : sig = hmacHex req.body)
    (j : JVal) (hj : parse req.body = some j)
    (p : WebhookPayload) (hp : validatePayload j = .ok p)
    (now1 now2 : String) (s : Store)
    (hcount : countId s p.message_id ≤ 1) :
    (webhook hmacHex parse false now1 req s).1 = okResp ∧
    (webhook hmacHex parse false now2 req
        (webhook hmacHex parse false now1 req s).2).1 = okResp ∧
    countId (webhook hmacHex parse false now2 req
        (webhook hmacHex parse false now1 req s).2).2 p.message_id = 1 ∧
    (webhook hmacHex parse false now1 req s).1 =
      (webhook hmacHex parse false now2 req
        (webhook hmacHex parse false now1 req s).2).1 := by
  have h1 := webhook_valid_eq hmacHex parse false now1 req s sig hs hne hm
    j hj p hp
  rw [insert_message_rowData] at h1
  by_cases hh : hasId s p.message_id = true
  · rw [if_pos hh] at h1
    have h2 := webhook_valid_eq hmacHex parse false now2 req s sig hs hne hm
      j hj p hp
    rw [insert_message_rowData, if_pos hh] at h2
    have hnz : countId s p.message_id ≠ 0 := by
      intro hc
      rw [(countId_eq_zero_iff s p.message_id).mp hc] at hh
      exact Bool.false_ne_true hh
    refine ⟨by simp only [h1], by simp only [h1, h2], ?_,
      by simp only [h1, h2]⟩
    simp only [h1, h2]
    omega
  · have hhf : hasId s p.message_id = false := by
      cases hv : hasId s p.message_id
      · rfl
      · exact absurd hv hh
    rw [if_neg hh] at h1
    have hap : hasId
        (s ++ [⟨p.message_id, p.from_, p.to_, p.ts, some p.text, now1⟩])
        p.message_id = true :=
      hasId_append_self s
        ⟨p.message_id, p.from_, p.to_, p.ts, some p.text, now1⟩
    have h2 := webhook_valid_eq hmacHex parse false now2 req
      (s ++ [⟨p.message_id, p.from_, p.to_, p.ts, some p.text, now1⟩])
      sig hs hne hm j hj p hp
    rw [insert_message_rowData, if_pos hap] at h2
    have hz : countId s p.message_id = 0 :=
      (countId_eq_zero_iff s p.message_id).mpr hhf
    have hone : countId
        (s ++ [⟨p.message_id, p.from_, p.to_, p.ts, some p.text, now1⟩])
        p.message_id = 1 := by
      rw [countId_append, hz, countId_singleton_self _ _ rfl]
    refine ⟨by simp only [h1], by simp only [h1, h2], ?_,
      by simp only [h1, h2]⟩
    simp only [h1, h2]
    exact hone

/-- The spec's end-to-end example payload, as parsed JSON. -/
def exampleJson : JVal :=
  JVal.obj [("message_id", JVal.str "msg_001"),
            ("from", JVal.str "+919876543210"),
            ("to", JVal.str "+14155550100"),
            ("ts", JVal.str "2025-01-15T10:00:00Z"),
            ("text", JVal.str "Hello World")]

/-- The validated form of `exampleJson`. -/
def examplePayload : WebhookPayload :=
  ⟨"msg_001", "+919876543210", "+14155550100", "2025-01-15T10:00:00Z",
   "Hello World"⟩

/-- A correctly-signed request carrying `exampleJson`. -/
def exampleReq : Request := ⟨"rawbody", some "f00"⟩

theorem claim_C1_witness :
    (webhook (fun _ => "f00") (fun _ => some exampleJson) false "n1"
        exampleReq []).1 = okResp ∧
    (webhook (fun _ => "f00") (fun _ => some exampleJson) false "n2"
        exampleReq
        (webhook (fun _ => "f00") (fun _ => some exampleJson) false "n1"
          exampleReq []).2).1 = okResp ∧
    countId (webhook (fun _ => "f00") (fun _ => some exampleJson) false "n2"
        exampleReq
        (webhook (fun _ => "f00") (fun _ => some exampleJson) false "n1"
          exampleReq []).2).2 examplePayload.message_id = 1 ∧
    (webhook (fun _ => "f00") (fun _ => some exampleJson) false "n1"
        exampleReq []).1 =
      (webhook (fun _ => "f00") (fun _ => some exampleJson) false "n2"
        exampleReq
        (webhook (fun _ => "f00") (fun _ => some exampleJson) false "n1"
          exampleReq []).2).1 :=
  claim_C1_webhook_idempotent (fun _ => "f00") (fun _ => some exampleJson)
    exampleReq "f00" rfl (by decide) rfl exampleJson rfl examplePayload
    (by rfl) "n1" "n2" [] (by decide)

/-- C3: with a valid signature, a body that is malformed JSON, is not an
object, lacks a required field, violates a field pattern (or has an empty
`message_id`, a non-string required field, or `text` over 4096 chars)
is answered `422` with a non-empty `detail`, and nothing is persisted. -/
theorem claim_C3_validation_422 (hmacHex : String → String)
    (parse : String → Option JVal) (ioFail : Bool) (now : String)
    (req : Request) (s : Store)
    (hsig : req.xSignature = some (hmacHex req.body))
    (hne : hmacHex req.body ≠ "")
    (hbad : parse req.body = none ∨
      ∃ j, parse req.body = some j ∧
        ((∀ fields, j ≠ JVal.obj fields) ∨
         ∃ fields, j = JVal.obj fields ∧
           (jlookup fields "message_id" = none ∨
            jlookup fields "from" = none ∨
            jlookup fields "to" = none ∨
            jlookup fields "ts" = none ∨
            jlookup fields "message_id" = some (JVal.str "") ∨
            (∃ f, jlookup fields "from" = some (JVal.str f) ∧
              isPlusDigits f = false) ∨
            (∃ t, jlookup fields "to" = some (JVal.str t) ∧
              isPlusDigits t = false) ∨
            (∃ ts, jlookup fields "ts" = some (JVal.str ts) ∧
              isTsPattern ts = false) ∨
            (∃ txt, jlookup fields "text" = some (JVal.str txt) ∧
              4096 < txt.length)))) :
    ∃ d, webhook hmacHex parse ioFail now req s = (validationResp d, s) ∧
      d ≠ "" := by
  have hred' : webhook hmacHex parse ioFail now req s =
      (match parse req.body with
       | none => (validationResp
           "Expecting value: line 1 column 1 (char 0)", s)
       | some j =>
         match validatePayload j with
         | .error e => (validationResp e, s)
         | .ok p =>
           match insert_message ioFail s (rowData p now) with
           | .error _ => (serverErrorResp, s)
           | .ok (_, s') => (okResp, s')) := by
    unfold webhook
    rw [hsig]
    simp [hne]
  rcases hbad with hnone | ⟨j, hj, hbadj⟩
  · rw [hnone] at hred'
    exact ⟨_, hred', by decide⟩
  · simp only [hj] at hred'
    cases hv : validatePayload j with
    | error e =>
        rw [hv] at hred'
        exact ⟨e, hred', validatePayload_error hv⟩
    | ok p =>
        exfalso
        rcases validatePayload_ok hv with
          ⟨fields, rfl, hmid, hmlen, hf, hfp, ht, htp, hts, htsp, htxt,
           htxtlen⟩
        rcases hbadj with hnotobj | ⟨fields', heq, hcond⟩
        · exact hnotobj fields rfl
        · have hfe : fields' = fields := by
            injection heq.symm
          subst hfe
          rcases hcond with h | h | h | h | h | ⟨f, hl, hppat⟩ |
            ⟨t, hl, hppat⟩ | ⟨ts, hl, hppat⟩ | ⟨txt, hl, hlen⟩
          · rw [hmid] at h; cases h
          · rw [hf] at h; cases h
          · rw [ht] at h; cases h
          · rw [hts] at h; cases h
          · rw [hmid] at h
            injection h with h'
            injection h' with h''
            rw [h''] at hmlen
            exact absurd hmlen (by decide)
          · rw [hf] at hl
            injection hl with h'
            injection h' with h''
            rw [← h''] at hppat
            rw [hppat] at hfp
            exact Bool.false_ne_true hfp
          · rw [ht] at hl
            injection hl with h'
            injection h' with h''
            rw [← h''] at hppat
            rw [hppat] at htp
            exact Bool.false_ne_true htp
          · rw [hts] at hl
            injection hl with h'
            injection h' with h''
            rw [← h''] at hppat
            rw [hppat] at htsp
            exact Bool.false_ne_true htsp
          · rcases htxt with ⟨hnone', _⟩ | hsome
            · rw [hnone'] at hl; cases hl
            · rw [hsome] at hl
              injection hl with h'
              injection h' with h''
              rw [← h''] at hlen
              omega

theorem claim_C3_witness :
    ∃ d, webhook (fun _ => "s1")
        (fun _ => some (JVal.obj [("message_id", JVal.str "m1")])) false
        "now" ⟨"b", some "s1"⟩ [] = (validationResp d, []) ∧ d ≠ "" :=
  claim_C3_validation_422 (fun _ => "s1")
    (fun _ => some (JVal.obj [("message_id", JVal.str "m1")])) false "now"
    ⟨"b", some "s1"⟩ [] rfl (by decide)
    (Or.inr ⟨JVal.obj [("message_id", JVal.str "m1")], rfl,
      Or.inr ⟨[("message_id", JVal.str "m1")], rfl,
        Or.inr (Or.inl rfl)⟩⟩)

/-- C6: the `data` page is sorted ascending by `ts` with ties broken by
`message_id` ascending, and the whole response is invariant under
permutations of the stored rows (given the PRIMARY KEY invariant), so
pagination over the same store is deterministic. -/
theorem claim_C6_ordering_deterministic (lq : ListQuery) (s₁ s₂ : Store)
    (hperm : s₁.Perm s₂) (hpk : (s₁.map Row.message_id).Nodup) :
    (list_messages lq s₁).data.Pairwise RowLE ∧
    list_messages lq s₁ = list_messages lq s₂ := by
  constructor
  · have hs := sortRows_sorted (s₁.filter (rowMatches lq))
    have h1 := List.Pairwise.sublist
      (List.drop_sublist lq.offset (sortRows (s₁.filter (rowMatches lq)))) hs
    exact List.Pairwise.sublist (List.take_sublist _ _) h1
  · have hpf : (s₁.filter (rowMatches lq)).Perm
        (s₂.filter (rowMatches lq)) := hperm.filter _
    have hsort : sortRows (s₁.filter (rowMatches lq)) =
        sortRows (s₂.filter (rowMatches lq)) := by
      apply sorted_perm_eq
      · exact (sortRows_perm _).trans (hpf.trans (sortRows_perm _).symm)
      · exact sortRows_sorted _
      · exact sortRows_sorted _
      · intro a ha b hb hid
        have ha' : a ∈ s₁ :=
          List.mem_of_mem_filter ((sortRows_perm _).mem_iff.mp ha)
        have hb' : b ∈ s₁ :=
          List.mem_of_mem_filter ((sortRows_perm _).mem_iff.mp hb)
        exact List.inj_on_of_nodup_map hpk ha' hb' hid
    simp only [list_messages]
    rw [hsort, hpf.length_eq]

theorem claim_C6_witness :
    (list_messages ⟨2, 0, none, none, none⟩
      [⟨"m2", "+2", "+9", "2025-01-02T00:00:00Z", none, "c"⟩,
       ⟨"m1", "+1", "+9", "2025-01-01T00:00:00Z", none, "c"⟩]).data.Pairwise
        RowLE ∧
    list_messages ⟨2, 0, none, none, none⟩
      [⟨"m2", "+2", "+9", "2025-01-02T00:00:00Z", none, "c"⟩,
       ⟨"m1", "+1", "+9", "2025-01-01T00:00:00Z", none, "c"⟩] =
    list_messages ⟨2, 0, none, none, none⟩
      [⟨"m1", "+1", "+9", "2025-01-01T00:00:00Z", none, "c"⟩,
       ⟨"m2", "+2", "+9", "2025-01-02T00:00:00Z", none, "c"⟩] :=
  claim_C6_ordering_deterministic ⟨2, 0, none, none, none⟩ _ _
    (List.Perm.swap _ _ _) (by decide)

/-- A row is in the page only if it is in the (unsorted) filtered set. -/
theorem mem_data_mem_filter (lq : ListQuery) (s : Store) (r : Row)
    (hr : r ∈ (list_messages lq s).data) :
    r ∈ s.filter (rowMatches lq) := by
  simp only [list_messages] at hr
  have h1 : r ∈ sortRows (s.filter (rowMatches lq)) :=
    (List.drop_sublist _ _).subset ((List.take_sublist _ _).subset hr)
  exact (sortRows_perm _).mem_iff.mp h1

/-- C7: with `from=x` and `since=t` set, every returned row has sender
exactly `x` and timestamp `≥ t`; `total` counts exactly the rows passing
both filters; and with `limit=2&offset=0` the page is an initial segment
of the sorted filtered rows — sorted ascending, and `≤` every filtered
row left out. -/
theorem claim_C7_from_since_filters (s : Store) (x t : String)
    (hx : x ≠ "") (ht : t ≠ "") (limit offset : Nat) :
    (∀ r ∈ (list_messages ⟨limit, offset, some x, some t, none⟩ s).data,
       r.from_msisdn = x ∧ strLe t r.ts = true) ∧
    (list_messages ⟨limit, offset, some x, some t, none⟩ s).total =
      (s.filter (fun r => r.from_msisdn == x && strLe t r.ts)).length ∧
    (∃ rest,
      sortRows (s.filter (fun r => r.from_msisdn == x && strLe t r.ts)) =
        (list_messages ⟨2, 0, some x, some t, none⟩ s).data ++ rest ∧
      (list_messages ⟨2, 0, some x, some t, none⟩ s).data.Pairwise RowLE ∧
      ∀ a ∈ (list_messages ⟨2, 0, some x, some t, none⟩ s).data,
        ∀ b ∈ rest, RowLE a b) := by
  have hrm : ∀ (L O : Nat) (r : Row),
      rowMatches ⟨L, O, some x, some t, none⟩ r =
        (r.from_msisdn == x && strLe t r.ts) := by
    intro L O r
    simp [rowMatches, truthy, hx, ht]
  have hfe : ∀ (L O : Nat),
      s.filter (rowMatches ⟨L, O, some x, some t, none⟩) =
        s.filter (fun r => r.from_msisdn == x && strLe t r.ts) :=
    fun L O => List.filter_congr (fun r _ => hrm L O r)
  refine ⟨?_, ?_, ?_⟩
  · intro r hr
    have h2 := mem_data_mem_filter _ _ _ hr
    have h3 := (List.mem_filter.mp h2).2
    rw [hrm] at h3
    rw [Bool.and_eq_true] at h3
    exact ⟨beq_iff_eq.mp h3.1, h3.2⟩
  · simp only [list_messages]
    exact congrArg List.length (hfe limit offset)
  · refine ⟨(sortRows (s.filter
      (fun r => r.from_msisdn == x && strLe t r.ts))).drop 2, ?_, ?_, ?_⟩
    · simp only [list_messages, hfe 2 0, List.drop_zero]
      exact (List.take_append_drop 2 _).symm
    · simp only [list_messages]
      exact List.Pairwise.sublist (List.take_sublist _ _)
        (List.Pairwise.sublist (List.drop_sublist _ _) (sortRows_sorted _))
    · intro a ha b hb
      simp only [list_messages, hfe 2 0, List.drop_zero] at ha
      exact sorted_take_drop (sortRows_sorted _) 2 a ha b hb

/-- The three-message store seeded by the repository's tests. -/
def seedStore : Store :=
  [⟨"m1", "+111", "+999", "2025-01-01T10:00:00Z", some "Oldest", "c"⟩,
   ⟨"m2", "+111", "+999", "2025-01-02T10:00:00Z", some "Middle", "c"⟩,
   ⟨"m3", "+222", "+999", "2025-01-03T10:00:00Z", some "Newest", "c"⟩]

theorem claim_C7_witness :
    (∀ r ∈ (list_messages ⟨50, 0, some "+222",
        some "2025-01-02T00:00:00Z", none⟩ seedStore).data,
       r.from_msisdn = "+222" ∧ strLe "2025-01-02T00:00:00Z" r.ts = true) ∧
    (list_messages ⟨50, 0, some "+222", some "2025-01-02T00:00:00Z", none⟩
        seedStore).total =
      (seedStore.filter (fun r => r.from_msisdn == "+222" &&
        strLe "2025-01-02T00:00:00Z" r.ts)).length ∧
    (∃ rest,
      sortRows (seedStore.filter (fun r => r.from_msisdn == "+222" &&
          strLe "2025-01-02T00:00:00Z" r.ts)) =
        (list_messages ⟨2, 0, some "+222", some "2025-01-02T00:00:00Z",
          none⟩ seedStore).data ++ rest ∧
      (list_messages ⟨2, 0, some "+222", some "2025-01-02T00:00:00Z", none⟩
        seedStore).data.Pairwise RowLE ∧
      ∀ a ∈ (list_messages ⟨2, 0, some "+222",
          some "2025-01-02T00:00:00Z", none⟩ seedStore).data,
        ∀ b ∈ rest, RowLE a b) :=
  claim_C7_from_since_filters seedStore "+222" "2025-01-02T00:00:00Z"
    (by decide) (by decide) 50 0

/-- C8 as stated is FALSE on the code: the `q` filter is an unescaped SQL
`LIKE '%q%'`.  With `q = "a%b"` the stored row with text `"aXb"` is
returned (the `%` inside `q` matches the `X`), although `"a%b"` is not a
literal substring of `"aXb"`. -/
theorem claim_C8_counterexample :
    (list_messages ⟨50, 0, none, none, some "a%b"⟩
        [⟨"m1", "+111", "+999", "2025-01-01T00:00:00Z", some "aXb",
          "c"⟩]).data =
      [⟨"m1", "+111", "+999", "2025-01-01T00:00:00Z", some "aXb", "c"⟩] ∧
    hasSubstr "aXb".data "a%b".data = false := by
  constructor
  · simp [list_messages, rowMatches, truthy, likeMatch, sortRows,
      insertSorted, asciiLower]
  · decide

/-- C8 amended: for non-empty `q`, `GET /messages` returns exactly the
rows whose (non-NULL) `text` matches the SQL `LIKE` pattern `%q%` —
ASCII-case-insensitively and with `%`/`_` in `q` acting as wildcards —
not literal substring containment: every returned row LIKE-matches, and
`total` counts exactly the LIKE-matching rows. -/
theorem claim_C8_like_semantics (s : Store) (q : String) (hq : q ≠ "")
    (limit offset : Nat) :
    (∀ r ∈ (list_messages ⟨limit, offset, none, none, some q⟩ s).data,
       ∃ tx, r.text = some tx ∧
         likeMatch ('%' :: q.data ++ ['%']) tx.data = true) ∧
    (list_messages ⟨limit, offset, none, none, some q⟩ s).total =
      (s.filter (fun r =>
        match r.text with
        | none => false
        | some tx => likeMatch ('%' :: q.data ++ ['%']) tx.data)).length := by
  have hrm : ∀ (r : Row),
      rowMatches ⟨limit, offset, none, none, some q⟩ r =
        (match r.text with
         | none => false
         | some tx => likeMatch ('%' :: q.data ++ ['%']) tx.data) := by
    intro r
    simp [rowMatches, truthy, hq]
  have hfe : s.filter (rowMatches ⟨limit, offset, none, none, some q⟩) =
      s.filter (fun r =>
        match r.text with
        | none => false
        | some tx => likeMatch ('%' :: q.data ++ ['%']) tx.data) :=
    List.filter_congr (fun r _ => hrm r)
  constructor
  · intro r hr
    have h2 := mem_data_mem_filter _ _ _ hr
    have h3 := (List.mem_filter.mp h2).2
    rw [hrm] at h3
    cases htx : r.text with
    | none => rw [htx] at h3; cases h3
    | some tx =>
        rw [htx] at h3
        exact ⟨tx, rfl, h3⟩
  · simp only [list_messages]
    exact congrArg List.length hfe

/-- A one-row store whose text is `"Hello"`. -/
def helloStore : Store :=
  [⟨"m1", "+111", "+999", "2025-01-01T00:00:00Z", some "Hello", "c"⟩]

theorem claim_C8_witness :
    (∀ r ∈ (list_messages ⟨50, 0, none, none, some "ell"⟩
        helloStore).data,
       ∃ tx, r.text = some tx ∧
         likeMatch ('%' :: "ell".data ++ ['%']) tx.data = true) ∧
    (list_messages ⟨50, 0, none, none, some "ell"⟩ helloStore).total =
      (helloStore.filter (fun r =>
        match r.text with
        | none => false
        | some tx => likeMatch ('%' :: "ell".data ++ ['%'])
            tx.data)).length :=
  claim_C8_like_semantics helloStore "ell" (by decide) 50 0

/-- C9: `GET /stats` reports the row count, the number of distinct
senders, and the least/greatest stored `ts` (both `NULL` exactly on an
empty store). -/
theorem claim_C9_stats (s : Store) :
    (get_stats s).total_messages = s.length ∧
    (get_stats s).senders_count = (s.map Row.from_msisdn).toFinset.card ∧
    ((get_stats s).first_message_ts = none ↔ s = []) ∧
    ((get_stats s).last_message_ts = none ↔ s = []) ∧
    (∀ m, (get_stats s).first_message_ts = some m ↔
      m ∈ s.map Row.ts ∧ ∀ x ∈ s.map Row.ts, strLe m x = true) ∧
    (∀ m, (get_stats s).last_message_ts = some m ↔
      m ∈ s.map Row.ts ∧ ∀ x ∈ s.map Row.ts, strLe x m = true) := by
  refine ⟨rfl, (List.card_toFinset _).symm, ?_, ?_, ?_, ?_⟩
  · simp [get_stats, sqlMin_eq_none_iff]
  · simp [get_stats, sqlMax_eq_none_iff]
  · intro m; exact sqlMin_eq_some_iff _ m
  · intro m; exact sqlMax_eq_some_iff _ m

/-- C10: an empty-string `from`, `since` or `q` parameter is falsy in
Python (`if from_:` etc.), so the corresponding WHERE clause is not
added and the response equals the one with the parameter absent. -/
theorem claim_C10_empty_params (s : Store) (limit offset : Nat)
    (f si q : Option String) :
    (list_messages ⟨limit, offset, some "", si, q⟩ s =
      list_messages ⟨limit, offset, none, si, q⟩ s) ∧
    (list_messages ⟨limit, offset, f, some "", q⟩ s =
      list_messages ⟨limit, offset, f, none, q⟩ s) ∧
    (list_messages ⟨limit, offset, f, si, some ""⟩ s =
      list_messages ⟨limit, offset, f, si, none⟩ s) := by
  have e1 : s.filter (rowMatches ⟨limit, offset, some "", si, q⟩) =
      s.filter (rowMatches ⟨limit, offset, none, si, q⟩) :=
    List.filter_congr (fun r _ => by simp [rowMatches, truthy])
  have e2 : s.filter (rowMatches ⟨limit, offset, f, some "", q⟩) =
      s.filter (rowMatches ⟨limit, offset, f, none, q⟩) :=
    List.filter_congr (fun r _ => by simp [rowMatches, truthy])
  have e3 : s.filter (rowMatches ⟨limit, offset, f, si, some ""⟩) =
      s.filter (rowMatches ⟨limit, offset, f, si, none⟩) :=
    List.filter_congr (fun r _ => by simp [rowMatches, truthy])
  refine ⟨?_, ?_, ?_⟩
  · simp only [list_messages, e1]
  · simp only [list_messages, e2]
  · simp only [list_messages, e3]
